import Mathlib

set_option maxRecDepth 100000

/-!
Verification development for the print-to-logger rewriter
(`Utilities/replace_prints.py`).

The script walks a directory tree for `.swift` files and rewrites
`print(...)` calls to `Logger.shared.log(...)` calls with three ordered
`re.sub` substitutions, writing a file back only when its content changed.

The embedding below models:
  * the three regular expressions and Python `re.sub` semantics
    (leftmost non-overlapping matches, scanning left to right, with the
    deterministic backtracking behaviour these particular patterns have);
  * `find_swift_files` over a directory-tree model of `os.walk`;
  * the single-file updater `replace_print_statements`;
  * the `main` driver, with the operating-system state passed explicitly.
-/

namespace ReplacePrints

/-- Python's `\s` character class for str patterns (Unicode matching, the
default for the script's patterns on text read with encoding utf-8):
U+0009 to U+000D, U+001C to U+001F, space, U+0085 (next line), U+00A0
(no-break space), U+1680 (ogham space mark), U+2000 to U+200A,
U+2028 and U+2029 (line and paragraph separators), U+202F, U+205F and
U+3000 (ideographic space).  This is exactly the set CPython's `\s`
matches over the whole Unicode range. -/
def isPySpace (c : Char) : Bool :=
  (0x9 ≤ c.toNat && c.toNat ≤ 0xd)
    || (0x1c ≤ c.toNat && c.toNat ≤ 0x20)
    || c.toNat = 0x85 || c.toNat = 0xa0 || c.toNat = 0x1680
    || (0x2000 ≤ c.toNat && c.toNat ≤ 0x200a)
    || c.toNat = 0x2028 || c.toNat = 0x2029 || c.toNat = 0x202f
    || c.toNat = 0x205f || c.toNat = 0x3000

/-- Strip the literal prefix `pre` from the front of `l`, returning the rest. -/
def stripPre : List Char → List Char → Option (List Char)
  | [], l => some l
  | _ :: _, [] => none
  | p :: ps, c :: cs => if p = c then stripPre ps cs else none

/-- The characters of the literal `print("` that every pattern starts with. -/
def printQ : List Char := ['p', 'r', 'i', 'n', 't', '(', '"']

/-- Replacement template of rule 1:
`Logger.shared.log("\2", category: .\1, level: .info)`.
Group text is inserted verbatim, exactly as Python `re.sub` does. -/
def repl1 (g1 g2 : List Char) : String :=
  "Logger.shared.log(\"" ++ String.mk g2 ++ "\", category: ." ++ String.mk g1
    ++ ", level: .info)"

/-- Replacement template of rule 2:
`Logger.shared.log("\1", category: .general, level: .info)`. -/
def repl2 (g1 : List Char) : String :=
  "Logger.shared.log(\"" ++ String.mk g1 ++ "\", category: .general, level: .info)"

/-- Replacement template of rule 3:
`Logger.shared.log("\1: \2", category: .general, level: .info)`. -/
def repl3 (g1 g2 : List Char) : String :=
  "Logger.shared.log(\"" ++ String.mk g1 ++ ": " ++ String.mk g2
    ++ "\", category: .general, level: .info)"

/-- Resolve `\s*([^X]+)` against the run `t` of characters that precede the
first occurrence of the terminator `X` (the caller has already split there).
Greedy `\s*` takes the maximal whitespace run; if nothing is left for the
mandatory `[^X]+`, the engine backtracks `\s*` by one character, so the
group is the last character of an all-whitespace run.  Empty `t` fails. -/
def wsGroup (t : List Char) : Option (List Char) :=
  let r := t.dropWhile isPySpace
  if r.isEmpty then
    match t.getLast? with
    | some c => some [c]
    | none => none
  else some r

/-- Rule 1 matcher: `print\("\[([^\]]+)\]\s*([^"]+)"\)` anchored at the head
of `l`.  On success, returns the replacement text and the characters that
follow the match.  Group 1 is the maximal `]`-free run (it must be
non-empty), group 2 is resolved by `wsGroup` against the quote-free run
after `]`, and the match must close with `")`. -/
def pm1 (l : List Char) : Option (String × List Char) :=
  match stripPre printQ l with
  | some ('[' :: r1) =>
    let g1 := r1.takeWhile (· ≠ ']')
    if g1.isEmpty then none else
    match r1.dropWhile (· ≠ ']') with
    | ']' :: r2 =>
      let t := r2.takeWhile (· ≠ '"')
      match wsGroup t, r2.dropWhile (· ≠ '"') with
      | some g2, '"' :: ')' :: rest => some (repl1 g1 g2, rest)
      | _, _ => none
    | _ => none
  | _ => none

/-- Rule 2 matcher: `print\("([^"]+)"\)` anchored at the head of `l`. -/
def pm2 (l : List Char) : Option (String × List Char) :=
  match stripPre printQ l with
  | some r0 =>
    let g1 := r0.takeWhile (· ≠ '"')
    if g1.isEmpty then none else
    match r0.dropWhile (· ≠ '"') with
    | '"' :: ')' :: rest => some (repl2 g1, rest)
    | _ => none
  | none => none

/-- Rule 3 matcher: `print\("([^"]+)",\s*([^)]+)\)` anchored at the head
of `l`. -/
def pm3 (l : List Char) : Option (String × List Char) :=
  match stripPre printQ l with
  | some r0 =>
    let g1 := r0.takeWhile (· ≠ '"')
    if g1.isEmpty then none else
    match r0.dropWhile (· ≠ '"') with
    | '"' :: ',' :: r2 =>
      let t := r2.takeWhile (· ≠ ')')
      match wsGroup t, r2.dropWhile (· ≠ ')') with
      | some g2, ')' :: rest => some (repl3 g1 g2, rest)
      | _, _ => none
    | _ => none
  | none => none

/-- One `re.sub` pass: scan left to right; at each position try the matcher,
emit its replacement and resume after the match, otherwise copy one
character.  Every successful match of the three rules above consumes at
least one character, so fuel equal to the length of the list is enough for
the scan to finish; the fuel-exhausted branch is never reached then. -/
def subScanF (step : List Char → Option (String × List Char)) :
    Nat → List Char → String
  | 0, l => String.mk l
  | _ + 1, [] => ""
  | fuel + 1, c :: cs =>
    match step (c :: cs) with
    | some (rep, rest) => rep ++ subScanF step fuel rest
    | none => String.mk [c] ++ subScanF step fuel cs

/-- Apply one substitution rule over an entire content string
(`re.sub(pattern, replacement, content)`). -/
def applyRule (step : List Char → Option (String × List Char)) (s : String) :
    String :=
  subScanF step s.data.length s.data

/-- The ordered rule list of `replace_print_statements`. -/
def patterns : List (List Char → Option (String × List Char)) :=
  [pm1, pm2, pm3]

/-- The substitution pass of `replace_print_statements`: fold the three
rules in order over the content, each operating on the previous output. -/
def replacePrintContent (s : String) : String :=
  patterns.foldl (fun content step => applyRule step content) s

/-- The file updater `replace_print_statements`, with the file's on-disk
content passed explicitly: read the content, run the substitution pass,
write back only if the result differs, and return whether a write
happened.  The pair is (resulting on-disk content, returned boolean). -/
def replacePrintsFile (disk : String) : String × Bool :=
  let content := disk
  let newContent := replacePrintContent content
  if newContent ≠ content then (newContent, true) else (disk, false)

/-- Does `step` match at some position of `l` (at `l` itself or at any
proper suffix)?  `re.sub` rewrites the content iff this holds. -/
def anyStep (step : List Char → Option (String × List Char)) :
    List Char → Bool
  | [] => false
  | c :: cs => (step (c :: cs)).isSome || anyStep step cs

/-- Does any of the three rules match anywhere in `l`? -/
def anyMatch (l : List Char) : Bool :=
  anyStep pm1 l || anyStep pm2 l || anyStep pm3 l

/-- Does `l` contain the substring `print("` (the literal every one of the
three patterns must start with)? -/
def containsPQ : List Char → Bool
  | [] => false
  | c :: cs => (stripPre printQ (c :: cs)).isSome || containsPQ cs

/-- True when the list does not start with a `\s` character; on the text
after a bracketed tag this is what makes `\s*` consume exactly the
separator so that group 2 is the whole message. -/
def headNotSpace : List Char → Bool
  | [] => true
  | c :: _ => !isPySpace c

/-- Python's `name.endswith(".swift")` on a file name. -/
def endsSwift (name : String) : Bool :=
  List.isSuffixOf ".swift".data name.data

/-- `os.path.join` on POSIX paths as used by the script (the walk hands
directory paths without trailing separators to `join`). -/
def joinPath (root name : String) : String := root ++ "/" ++ name

mutual

/-- A directory tree as seen by `os.walk`: the files directly inside a
directory (name and content) and the named subdirectories, in traversal
order.  `SubDirs` is an inlined list so that structural recursion and
induction stay simple. -/
inductive Dir where
  | mk (files : List (String × String)) (subdirs : SubDirs)

/-- The ordered subdirectories of a directory. -/
inductive SubDirs where
  | nil
  | cons (name : String) (d : Dir) (rest : SubDirs)

end

end ReplacePrints

namespace ReplacePrints

mutual

/-- `find_swift_files` on a directory tree: `os.walk` is top-down, so the
files of the directory itself come first, then the subdirectories in
order; each kept file is `os.path.join(root, file)` for a file whose name
ends with `.swift`. -/
def findSwiftDir (root : String) : Dir → List String
  | .mk files subs =>
    ((files.map Prod.fst).filter endsSwift).map (joinPath root)
      ++ findSwiftSubs root subs

/-- `find_swift_files` continued over the subdirectory list. -/
def findSwiftSubs (root : String) : SubDirs → List String
  | .nil => []
  | .cons n d rest => findSwiftDir (joinPath root n) d ++ findSwiftSubs root rest

end

mutual

/-- All files under a directory, as (directory path, file name) pairs in
walk order, with no extension filter.  This is the specification-side
enumeration the scanner is compared against. -/
def allFilesDir (root : String) : Dir → List (String × String)
  | .mk files subs =>
    files.map (fun f => (root, f.1)) ++ allFilesSubs root subs

/-- All files continued over the subdirectory list. -/
def allFilesSubs (root : String) : SubDirs → List (String × String)
  | .nil => []
  | .cons n d rest => allFilesDir (joinPath root n) d ++ allFilesSubs root rest

end

mutual

/-- The `.swift` files under a directory as (full path, content) pairs in
walk order; this is what the driver reads and rewrites. -/
def swiftPairsDir (root : String) : Dir → List (String × String)
  | .mk files subs =>
    (files.filter (fun f => endsSwift f.1)).map (fun f => (joinPath root f.1, f.2))
      ++ swiftPairsSubs root subs

/-- The `.swift` pairs continued over the subdirectory list. -/
def swiftPairsSubs (root : String) : SubDirs → List (String × String)
  | .nil => []
  | .cons n d rest =>
    swiftPairsDir (joinPath root n) d ++ swiftPairsSubs root rest

end

mutual

/-- The net effect of the run on a directory tree: every `.swift` file's
content becomes its transform (files the updater does not write keep a
content already equal to its transform), other files are untouched. -/
def rewriteDir : Dir → Dir
  | .mk files subs =>
    .mk (files.map fun f =>
          if endsSwift f.1 then (f.1, replacePrintContent f.2) else f)
        (rewriteSubs subs)

/-- The rewrite continued over the subdirectory list. -/
def rewriteSubs : SubDirs → SubDirs
  | .nil => .nil
  | .cons n d rest => .cons n (rewriteDir d) (rewriteSubs rest)

end

/-- An existing path as the operating system sees it: a regular file with
some content, or a directory with its tree. -/
inductive PathEntry where
  | file (content : String)
  | directory (d : Dir)

/-- The operating-system state: the existing paths and their entries.
`os.path.exists p` is a successful lookup. -/
abbrev FileSystem := List (String × PathEntry)

/-- `os.path.exists` plus what is at the path. -/
def lookupPath (fs : FileSystem) (p : String) : Option PathEntry :=
  match fs with
  | [] => none
  | (q, e) :: rest => if q = p then some e else lookupPath rest p

/-- Replace the entry at the first occurrence of path `p`. -/
def updateFirst (fs : FileSystem) (p : String) (e : PathEntry) : FileSystem :=
  match fs with
  | [] => []
  | (q, v) :: rest =>
    if q = p then (q, e) :: rest else (q, v) :: updateFirst rest p e

/-- The `.swift` (path, content) pairs the run sees for the path it was
given: `os.walk` on a regular file yields nothing. -/
def entryPairs (p : String) : PathEntry → List (String × String)
  | .file _ => []
  | .directory d => swiftPairsDir p d

/-- The usage line `main` prints on a wrong argument count. -/
def usageLine : String := "Usage: python replace_prints.py <directory>"

/-- The fixed advisory note `main` prints last. -/
def noteLine : String :=
  "Note: You may need to manually review and adjust Logger categories"

/-- The outcome of one invocation: process exit status, the lines printed
to standard output, and the resulting filesystem. -/
structure RunResult where
  exitCode : Nat
  output : List String
  fs : FileSystem

/-- The `main` driver.  `argv` is `sys.argv` (program name included).
Wrong argument count: usage line, exit 1.  Non-existent path: error line,
exit 1.  Otherwise scan, report the count found, rewrite each changed
file (reporting it), report the total modified and the advisory note, and
finish with exit status 0. -/
def mainRun (argv : List String) (fs : FileSystem) : RunResult :=
  match argv with
  | [_, directory] =>
    match lookupPath fs directory with
    | none => ⟨1, ["Directory " ++ directory ++ " does not exist"], fs⟩
    | some entry =>
      let pairs := entryPairs directory entry
      let foundLine := "Found " ++ Nat.repr pairs.length ++ " Swift files"
      let modified := pairs.filter (fun f => (replacePrintsFile f.2).2)
      let modLines := modified.map (fun f => "Modified: " ++ f.1)
      let summary := "\nModified " ++ Nat.repr modified.length ++ " files"
      let fsOut :=
        match entry with
        | .directory d => updateFirst fs directory (.directory (rewriteDir d))
        | .file _ => fs
      ⟨0, [foundLine] ++ modLines ++ [summary, noteLine], fsOut⟩
  | _ => ⟨1, [usageLine], fs⟩

/-! ### Basic facts about the scan -/

theorem mk_nil_eq : String.mk [] = "" := rfl

theorem mk_append (a b : List Char) :
    String.mk a ++ String.mk b = String.mk (a ++ b) := rfl

theorem mk_data (s : String) : String.mk s.data = s := rfl

theorem subScanF_nil (step : List Char → Option (String × List Char))
    (k : Nat) : subScanF step k [] = "" := by
  cases k <;> rfl

/-- If the rule matches nowhere in `l`, one `re.sub` pass copies `l`
unchanged, whatever the fuel. -/
theorem subScanF_of_none (step : List Char → Option (String × List Char)) :
    ∀ (l : List Char) (fuel : Nat), anyStep step l = false →
      subScanF step fuel l = String.mk l
  | [], fuel, _ => by cases fuel <;> rfl
  | c :: cs, 0, _ => rfl
  | c :: cs, fuel + 1, h => by
    have h' : (step (c :: cs)).isSome = false ∧ anyStep step cs = false := by
      simpa [anyStep] using h
    have hnone : step (c :: cs) = none := by
      cases hs : step (c :: cs) with
      | none => rfl
      | some v => rw [hs] at h'; simp at h'
    rw [subScanF, hnone]
    rw [subScanF_of_none step cs fuel h'.2, mk_append]
    rfl

/-- If the rule matches nowhere in the content, the substitution is the
identity. -/
theorem applyRule_of_none (step : List Char → Option (String × List Char))
    (s : String) (h : anyStep step s.data = false) : applyRule step s = s := by
  rw [applyRule, subScanF_of_none step s.data s.data.length h, mk_data]

theorem pm1_none_of_strip (l : List Char) (h : stripPre printQ l = none) :
    pm1 l = none := by
  rw [pm1, h]

theorem pm2_none_of_strip (l : List Char) (h : stripPre printQ l = none) :
    pm2 l = none := by
  rw [pm2, h]

theorem pm3_none_of_strip (l : List Char) (h : stripPre printQ l = none) :
    pm3 l = none := by
  rw [pm3, h]

/-- A rule that needs the literal `print("` at its match position matches
nowhere in a list that does not contain that substring. -/
theorem anyStep_false_of_no_pq (step : List Char → Option (String × List Char))
    (hstep : ∀ l, stripPre printQ l = none → step l = none) :
    ∀ l : List Char, containsPQ l = false → anyStep step l = false
  | [], _ => rfl
  | c :: cs, h => by
    have h' : (stripPre printQ (c :: cs)).isSome = false ∧ containsPQ cs = false := by
      simpa [containsPQ] using h
    have hnone : stripPre printQ (c :: cs) = none := by
      cases hs : stripPre printQ (c :: cs) with
      | none => rfl
      | some v => rw [hs] at h'; simp at h'
    have := anyStep_false_of_no_pq step hstep cs h'.2
    simp [anyStep, hstep _ hnone, this]

/-- If there is no occurrence of `print("` in the content, none of the
three rules fires and the whole substitution pass is the identity. -/
theorem replacePrintContent_of_no_pq (s : String)
    (h : containsPQ s.data = false) : replacePrintContent s = s := by
  have h1 := applyRule_of_none pm1 s (anyStep_false_of_no_pq pm1 pm1_none_of_strip s.data h)
  have h2 := applyRule_of_none pm2 s (anyStep_false_of_no_pq pm2 pm2_none_of_strip s.data h)
  have h3 := applyRule_of_none pm3 s (anyStep_false_of_no_pq pm3 pm3_none_of_strip s.data h)
  simp only [replacePrintContent, patterns, List.foldl]
  rw [h1, h2, h3]

/-- If none of the three rules matches anywhere in the content, the whole
substitution pass is the identity. -/
theorem replacePrintContent_of_noMatch (s : String)
    (h : anyMatch s.data = false) : replacePrintContent s = s := by
  have h' := h
  rw [anyMatch] at h'
  have h1 : anyStep pm1 s.data = false := by
    cases hx : anyStep pm1 s.data with
    | false => rfl
    | true => rw [hx] at h'; simp at h'
  have h2 : anyStep pm2 s.data = false := by
    cases hx : anyStep pm2 s.data with
    | false => rfl
    | true => rw [hx] at h'; simp at h'
  have h3 : anyStep pm3 s.data = false := by
    cases hx : anyStep pm3 s.data with
    | false => rfl
    | true => rw [hx] at h'; simp at h'
  simp only [replacePrintContent, patterns, List.foldl]
  rw [applyRule_of_none pm1 s h1, applyRule_of_none pm2 s h2,
    applyRule_of_none pm3 s h3]

/-! ### The scanner returns exactly the `.swift` files -/

theorem files_step (root : String) (files : List (String × String)) :
    ((files.map Prod.fst).filter endsSwift).map (joinPath root)
      = ((files.map (fun f => (root, f.1))).filter (fun e => endsSwift e.2)).map
          (fun e => joinPath e.1 e.2) := by
  induction files with
  | nil => rfl
  | cons f rest ih =>
    simp only [List.map_cons, List.filter_cons]
    cases h : endsSwift f.1 <;> simp [h, ih]

mutual

theorem findSwiftDir_eq : ∀ (root : String) (d : Dir),
    findSwiftDir root d
      = ((allFilesDir root d).filter (fun e => endsSwift e.2)).map
          (fun e => joinPath e.1 e.2)
  | root, .mk files subs => by
    rw [findSwiftDir, allFilesDir, List.filter_append, List.map_append,
      files_step root files, findSwiftSubs_eq root subs]

theorem findSwiftSubs_eq : ∀ (root : String) (subs : SubDirs),
    findSwiftSubs root subs
      = ((allFilesSubs root subs).filter (fun e => endsSwift e.2)).map
          (fun e => joinPath e.1 e.2)
  | _, .nil => rfl
  | root, .cons n d rest => by
    rw [findSwiftSubs, allFilesSubs, List.filter_append, List.map_append,
      findSwiftDir_eq (joinPath root n) d, findSwiftSubs_eq root rest]

end

/-! ### Evaluating rule 1 on an arbitrary well-formed bracketed call -/

theorem data_append_t (s t : String) : (s ++ t).data = s.data ++ t.data := rfl

theorem append_empty_str (s : String) : s ++ "" = s := by
  have h : s ++ "" = String.mk (s.data ++ []) := rfl
  rw [h, List.append_nil, mk_data]

theorem stripPre_append : ∀ (p r : List Char), stripPre p (p ++ r) = some r
  | [], r => rfl
  | c :: ps, r => by simp [stripPre, stripPre_append ps r]

/-- When the rule matches at position 0 and consumes the whole content,
the pass returns exactly the replacement. -/
theorem subScanF_total (step : List Char → Option (String × List Char))
    (l : List Char) (rep : String) (hne : l ≠ []) (h : step l = some (rep, [])) :
    subScanF step l.length l = rep := by
  cases l with
  | nil => exact absurd rfl hne
  | cons c cs =>
    rw [List.length_cons, subScanF, h]
    show rep ++ subScanF step cs.length [] = rep
    rw [subScanF_nil]
    exact append_empty_str rep

theorem isEmpty_false_of_ne {l : List Char} (h : l ≠ []) : l.isEmpty = false := by
  cases l with
  | nil => exact absurd rfl h
  | cons a as => rfl

theorem takeWhile_middle (p : Char → Bool) :
    ∀ (xs : List Char) (x : Char) (ys : List Char),
      (∀ a ∈ xs, p a = true) → p x = false →
      ((xs ++ x :: ys).takeWhile p = xs ∧ (xs ++ x :: ys).dropWhile p = x :: ys)
  | [], x, ys, _, hx => by
    simp [List.takeWhile_cons, List.dropWhile_cons, hx]
  | a :: xs, x, ys, hall, hx => by
    have ha : p a = true := hall a (by simp)
    have ih := takeWhile_middle p xs x ys (fun b hb => hall b (by simp [hb])) hx
    simp [List.takeWhile_cons, List.dropWhile_cons, ha, ih.1, ih.2]

theorem dropWhile_head_neg (p : Char → Bool) (l : List Char)
    (h : ∀ c, l.head? = some c → p c = false) : l.dropWhile p = l := by
  cases l with
  | nil => rfl
  | cons c cs =>
    have := h c rfl
    simp [List.dropWhile_cons, this]

theorem headNotSpace_imp {l : List Char} (h : headNotSpace l = true) :
    ∀ c, l.head? = some c → isPySpace c = false := by
  intro c hc
  cases l with
  | nil => exact absurd hc (by simp)
  | cons a as =>
    have hac : a = c := by simpa using hc
    rw [headNotSpace] at h
    rw [← hac]
    simpa using h

/-- The `\s*([^"]+)` part of rule 1 on a separator space followed by a
message that does not itself start with whitespace: the group is the
whole message. -/
theorem wsGroup_space_cons (msg : List Char) (hm0 : msg ≠ [])
    (hm2 : ∀ c, msg.head? = some c → isPySpace c = false) :
    wsGroup (' ' :: msg) = some msg := by
  have hd : msg.dropWhile isPySpace = msg := dropWhile_head_neg _ _ hm2
  have hsp : isPySpace ' ' = true := rfl
  rw [wsGroup]
  simp only [List.dropWhile_cons, hsp, if_true, hd, isEmpty_false_of_ne hm0]
  rfl

/-- Rule 1 matches a well-formed bracketed call in full and inserts both
groups verbatim: the category tag is not lower-cased. -/
theorem pm1_bracket (cat msg : List Char)
    (hc0 : cat ≠ []) (hc1 : ']' ∉ cat)
    (hm0 : msg ≠ []) (hm1 : '"' ∉ msg)
    (hm2 : ∀ c, msg.head? = some c → isPySpace c = false) :
    pm1 (printQ ++ '[' :: (cat ++ ']' :: ' ' :: (msg ++ ['"', ')'])))
      = some (repl1 cat msg, []) := by
  have e1 := stripPre_append printQ ('[' :: (cat ++ ']' :: ' ' :: (msg ++ ['"', ')'])))
  have hmem1 : ∀ a ∈ cat, (fun x => decide (x ≠ ']')) a = true := by
    intro a ha
    simp only [decide_eq_true_eq]
    intro h
    exact hc1 (h ▸ ha)
  have tdw1 := takeWhile_middle (fun x => decide (x ≠ ']')) cat ']'
      (' ' :: (msg ++ ['"', ')'])) hmem1 (by decide)
  have hmem2 : ∀ a ∈ ' ' :: msg, (fun x => decide (x ≠ '"')) a = true := by
    intro a ha
    simp only [decide_eq_true_eq]
    intro h
    rcases List.mem_cons.mp ha with h1 | h2
    · rw [h1] at h; exact absurd h (by decide)
    · exact hm1 (h ▸ h2)
  have tdw2 := takeWhile_middle (fun x => decide (x ≠ '"')) (' ' :: msg) '"'
      [')'] hmem2 (by decide)
  have tw2 := tdw2.1
  have dw2 := tdw2.2
  rw [List.cons_append] at tw2 dw2
  rw [pm1, e1]
  simp only [tdw1.1, tdw1.2, isEmpty_false_of_ne hc0, Bool.false_eq_true,
    if_false, tw2, dw2, wsGroup_space_cons msg hm0 hm2]

/-- Applying rule 1 to a whole well-formed bracketed call: the message is
carried over and the category tag appears verbatim after the dot. -/
theorem sub1_bracket (cat msg : String)
    (hc0 : cat.data ≠ []) (hc1 : ']' ∉ cat.data)
    (hm0 : msg.data ≠ []) (hm1 : '"' ∉ msg.data)
    (hm2 : headNotSpace msg.data = true) :
    applyRule pm1 ("print(\"[" ++ cat ++ "] " ++ msg ++ "\")")
      = "Logger.shared.log(\"" ++ msg ++ "\", category: ." ++ cat
          ++ ", level: .info)" := by
  have hA : ("print(\"[" ++ cat ++ "] " ++ msg ++ "\")").data
      = printQ ++ '[' :: (cat.data ++ ']' :: ' ' :: (msg.data ++ ['"', ')'])) := by
    simp only [data_append_t]
    simp [printQ, List.append_assoc]
  rw [applyRule, hA]
  have hne : printQ ++ '[' :: (cat.data ++ ']' :: ' ' :: (msg.data ++ ['"', ')'])) ≠ [] := by
    simp [printQ]
  rw [subScanF_total pm1 _ _ hne
    (pm1_bracket cat.data msg.data hc0 hc1 hm0 hm1 (headNotSpace_imp hm2))]
  rw [repl1, mk_data, mk_data]

/-! ### The driver -/

theorem mainRun_usage (argv : List String) (fs : FileSystem)
    (h : argv.length ≠ 2) : mainRun argv fs = ⟨1, [usageLine], fs⟩ := by
  match argv with
  | [] => rfl
  | [a] => rfl
  | [a, b] => exact absurd (rfl : ([a, b] : List String).length = 2) h
  | a :: b :: c :: rest => rfl

theorem mainRun_missing (prog d : String) (fs : FileSystem)
    (h : lookupPath fs d = none) :
    mainRun [prog, d] fs = ⟨1, ["Directory " ++ d ++ " does not exist"], fs⟩ := by
  simp only [mainRun, h]

theorem mainRun_found_code (prog d : String) (fs : FileSystem) (e : PathEntry)
    (h : lookupPath fs d = some e) : (mainRun [prog, d] fs).exitCode = 0 := by
  simp only [mainRun, h]

theorem mainRun_found_zero (prog d : String) (fs : FileSystem) (e : PathEntry)
    (h : lookupPath fs d = some e) (hz : entryPairs d e = []) :
    (mainRun [prog, d] fs).output
      = ["Found 0 Swift files", "\nModified 0 files", noteLine] := by
  simp only [mainRun, h, hz]
  rfl

/-! ### The claims -/

/-- C1, counterexample: on `print("[Network] Request failed")` the pass does
not produce the lower-cased category symbol `.network`; it produces
`.Network`, the bracket tag verbatim. -/
theorem bracket_tag_not_lowercased :
    replacePrintContent "print(\"[Network] Request failed\")"
      ≠ "Logger.shared.log(\"Request failed\", category: .network, level: .info)"
  ∧ replacePrintContent "print(\"[Network] Request failed\")"
      = "Logger.shared.log(\"Request failed\", category: .Network, level: .info)" := by
  constructor <;> decide

/-- C1, amended: for the input `print("[Network] Request failed")` the pass
produces a structured-log call with message `Request failed`, category
symbol `.Network` (the bracket tag verbatim, not lower-cased) and level
`.info`; in general, every match of the bracketed-tag rule on a
well-formed call `print("[cat] msg")` (tag non-empty without `]` or `"`,
message non-empty without `"` and not starting with whitespace) carries
its category tag verbatim into the output. -/
theorem bracket_tag_verbatim :
    replacePrintContent "print(\"[Network] Request failed\")"
      = "Logger.shared.log(\"Request failed\", category: .Network, level: .info)"
  ∧ ∀ (cat msg : String), cat.data ≠ [] → ']' ∉ cat.data →
      msg.data ≠ [] → '"' ∉ msg.data → headNotSpace msg.data = true →
      applyRule pm1 ("print(\"[" ++ cat ++ "] " ++ msg ++ "\")")
        = "Logger.shared.log(\"" ++ msg ++ "\", category: ." ++ cat
            ++ ", level: .info)" :=
  ⟨by decide, fun cat msg h1 h2 h3 h4 h5 => sub1_bracket cat msg h1 h2 h3 h4 h5⟩

/-- C1, witness: the general part of the amended claim instantiated at the
tag `Network` and the message `Request failed`. -/
theorem bracket_tag_verbatim_witness :
    applyRule pm1 ("print(\"[" ++ "Network" ++ "] " ++ "Request failed" ++ "\")")
      = "Logger.shared.log(\"" ++ "Request failed" ++ "\", category: ."
          ++ "Network" ++ ", level: .info)" :=
  bracket_tag_verbatim.2 "Network" "Request failed"
    (by decide) (by decide) (by decide) (by decide) (by decide)

/-- C2, counterexample: the pass is not idempotent.  On the input
`print("M", print("X)` the first pass leaves a `print("` in its output
(rule 3 captures `print("X` inside its second group), and the second pass
rewrites that output again. -/
theorem rewriter_not_idempotent :
    replacePrintContent (replacePrintContent "print(\"M\", print(\"X)")
      ≠ replacePrintContent "print(\"M\", print(\"X)" := by
  decide

/-- C2, amended: the pass is idempotent on every input whose transformed
output no longer contains the substring `print("` (the literal every one
of the three patterns must start with): on such outputs a second
application returns the same string. -/
theorem rewriter_idempotent_without_leftover (s : String)
    (h : containsPQ (replacePrintContent s).data = false) :
    replacePrintContent (replacePrintContent s) = replacePrintContent s :=
  replacePrintContent_of_no_pq _ h

/-- C2, witness: the amended idempotence applied to the fully converted
output of `print("Game started")`. -/
theorem rewriter_idempotent_without_leftover_witness :
    replacePrintContent (replacePrintContent "print(\"Game started\")")
      = replacePrintContent "print(\"Game started\")" :=
  rewriter_idempotent_without_leftover "print(\"Game started\")" (by decide)

/-- C3: the updater reports a write exactly when the resulting on-disk
content differs from the original, equivalently when the transform
changed the content; and a content matched by none of the three patterns
is left unchanged with no write reported. -/
theorem file_write_iff_changed (c : String) :
    ((replacePrintsFile c).2 = true ↔ (replacePrintsFile c).1 ≠ c)
  ∧ ((replacePrintsFile c).2 = true ↔ replacePrintContent c ≠ c)
  ∧ (anyMatch c.data = false → replacePrintsFile c = (c, false)) := by
  by_cases h : replacePrintContent c = c
  · have hr : replacePrintsFile c = (c, false) := by
      rw [replacePrintsFile]
      simp [h]
    refine ⟨?_, ?_, fun _ => hr⟩
    · rw [hr]; simp
    · rw [hr]; simp [h]
  · have hr : replacePrintsFile c = (replacePrintContent c, true) := by
      rw [replacePrintsFile]
      simp [h]
    refine ⟨?_, ?_, ?_⟩
    · rw [hr]; simpa using h
    · rw [hr]; simpa using h
    · intro hm
      exact absurd (replacePrintContent_of_noMatch c hm) h

/-- C3, witness: a content with no print call is left unchanged and the
updater returns false. -/
theorem file_write_iff_changed_witness :
    replacePrintsFile "let score = 0" = ("let score = 0", false) :=
  (file_write_iff_changed "let score = 0").2.2 (by decide)

/-- C4: for every root and directory tree, the scanner returns exactly the
files whose name ends in `.swift` — each joined to its directory path —
at every nesting depth, and nothing else. -/
theorem scanner_exactly_swift_files (root : String) (d : Dir) :
    findSwiftDir root d
      = ((allFilesDir root d).filter (fun e => endsSwift e.2)).map
          (fun e => joinPath e.1 e.2) :=
  findSwiftDir_eq root d

/-- C5: a plain quoted message becomes a structured-log call with the same
message, the generic category `.general` and level `.info`. -/
theorem plain_message_rewrite :
    replacePrintContent "print(\"Hello world\")"
      = "Logger.shared.log(\"Hello world\", category: .general, level: .info)" := by
  decide

/-- C6: a quoted message with one interpolation argument becomes a
structured-log call whose message is the original message, `: `, and the
argument expression's source text, with category `.general` and level
`.info`. -/
theorem message_argument_rewrite :
    replacePrintContent "print(\"Value is\", x)"
      = "Logger.shared.log(\"Value is: x\", category: .general, level: .info)" := by
  decide

/-- C7: the pass is the sequential composition of the three substitutions
in listed order — bracketed tag, then plain message, then message plus
argument — each applied once over the whole content and operating on the
previous rule's output. -/
theorem pass_is_ordered_composition (s : String) :
    replacePrintContent s = applyRule pm3 (applyRule pm2 (applyRule pm1 s)) :=
  rfl

/-- C8: the driver exits 1 after the usage line on a wrong argument count,
exits 1 after the error line when the path does not exist, and otherwise
finishes with exit status 0 — reporting zero found and zero modified when
no `.swift` file is found. -/
theorem driver_exit_behavior (argv : List String) (fs : FileSystem) :
    (argv.length ≠ 2 → mainRun argv fs = ⟨1, [usageLine], fs⟩)
  ∧ (∀ prog d, argv = [prog, d] → lookupPath fs d = none →
      mainRun argv fs = ⟨1, ["Directory " ++ d ++ " does not exist"], fs⟩)
  ∧ (∀ prog d e, argv = [prog, d] → lookupPath fs d = some e →
      (mainRun argv fs).exitCode = 0)
  ∧ (∀ prog d e, argv = [prog, d] → lookupPath fs d = some e →
      entryPairs d e = [] →
      (mainRun argv fs).output
        = ["Found 0 Swift files", "\nModified 0 files", noteLine]) := by
  refine ⟨fun h => mainRun_usage argv fs h, ?_, ?_, ?_⟩
  · intro prog d ha hl
    subst ha
    exact mainRun_missing prog d fs hl
  · intro prog d e ha hl
    subst ha
    exact mainRun_found_code prog d fs e hl
  · intro prog d e ha hl hz
    subst ha
    exact mainRun_found_zero prog d fs e hl hz

/-- C8, witness: the three exit modes on concrete invocations — no
arguments, a missing directory, and an existing empty directory. -/
theorem driver_exit_behavior_witness :
    mainRun [] [] = ⟨1, [usageLine], []⟩
  ∧ mainRun ["replace_prints.py", "Sources"] []
      = ⟨1, ["Directory " ++ "Sources" ++ " does not exist"], []⟩
  ∧ (mainRun ["replace_prints.py", "Sources"]
      [("Sources", PathEntry.directory (Dir.mk [] SubDirs.nil))]).exitCode = 0
  ∧ (mainRun ["replace_prints.py", "Sources"]
      [("Sources", PathEntry.directory (Dir.mk [] SubDirs.nil))]).output
      = ["Found 0 Swift files", "\nModified 0 files", noteLine] :=
  ⟨(driver_exit_behavior [] []).1 (by decide),
   (driver_exit_behavior ["replace_prints.py", "Sources"] []).2.1
     "replace_prints.py" "Sources" rfl rfl,
   (driver_exit_behavior ["replace_prints.py", "Sources"]
       [("Sources", PathEntry.directory (Dir.mk [] SubDirs.nil))]).2.2.1
     "replace_prints.py" "Sources" _ rfl rfl,
   (driver_exit_behavior ["replace_prints.py", "Sources"]
       [("Sources", PathEntry.directory (Dir.mk [] SubDirs.nil))]).2.2.2
     "replace_prints.py" "Sources" _ rfl rfl rfl⟩

/-- C9: on either validation failure — wrong argument count or
non-existent path — the driver exits non-zero and the filesystem is
unchanged. -/
theorem validation_failure_untouched (argv : List String) (fs : FileSystem)
    (h : argv.length ≠ 2
          ∨ ∃ prog d, argv = [prog, d] ∧ lookupPath fs d = none) :
    (mainRun argv fs).exitCode ≠ 0 ∧ (mainRun argv fs).fs = fs := by
  rcases h with h | ⟨prog, d, ha, hl⟩
  · rw [mainRun_usage argv fs h]
    exact ⟨Nat.one_ne_zero, rfl⟩
  · subst ha
    rw [mainRun_missing prog d fs hl]
    exact ⟨Nat.one_ne_zero, rfl⟩

/-- C9, witness: a run with no arguments exits non-zero and leaves the
filesystem as it was. -/
theorem validation_failure_untouched_witness :
    (mainRun ["replace_prints.py"] []).exitCode ≠ 0
  ∧ (mainRun ["replace_prints.py"] []).fs = [] :=
  validation_failure_untouched ["replace_prints.py"] [] (Or.inl (by decide))

/-- C10: an existing path that is a regular file passes the existence
check; the walk over it yields nothing, so the run reports zero found,
zero modified, exits 0 and changes nothing. -/
theorem existing_nondirectory_accepted (prog p c : String) (fs : FileSystem)
    (h : lookupPath fs p = some (PathEntry.file c)) :
    mainRun [prog, p] fs
      = ⟨0, ["Found 0 Swift files", "\nModified 0 files", noteLine], fs⟩ := by
  simp only [mainRun, h, entryPairs]
  rfl

/-- C10, witness: the driver pointed at a regular file. -/
theorem existing_nondirectory_accepted_witness :
    mainRun ["replace_prints.py", "README.md"]
        [("README.md", PathEntry.file "hello")]
      = ⟨0, ["Found 0 Swift files", "\nModified 0 files", noteLine],
          [("README.md", PathEntry.file "hello")]⟩ :=
  existing_nondirectory_accepted "replace_prints.py" "README.md" "hello"
    [("README.md", PathEntry.file "hello")] rfl

end ReplacePrints
